import Mathlib

/-!
Verification development for the Cineon/DPX core
(`source/blender/imbuf/intern/cineon/logImageCore.cc`).

The C code is shallowly embedded: machine integers become `Nat` (with
explicit masking/shifting where the code masks or shifts), `float`
arithmetic is modelled by exact rational arithmetic `Rat`, the calls to
the transcendental C library functions (`powf`, `log10f`) are abstracted
into an explicit `FloatFn` oracle parameter so every theorem holds for
every interpretation of those functions, byte streams become `List Nat`,
and fallible operations return `Option` (with `none` standing for a
non-zero C return value).
-/

namespace LogImageCore

/-- Channel descriptor identifiers (`descriptor_*` of logImageCore.h). -/
inductive Descriptor where
  | Red
  | Green
  | Blue
  | Alpha
  | Luminance
  | Chrominance
  | RGB
  | RGBA
  | ABGR
  | CbYCrY
  | CbYACrYA
  | CbYCr
  | CbYCrA
  | YA
  | Depth
  | Composite
deriving DecidableEq

/-- Transfer characteristic identifiers (`transfer_*`), numbered as in the
DPX header: 0 unspecified, 1 user defined, 2 linear, 3 logarithmic,
4 printing density, 5 SMPTE 240M, 6 CCIR 709-1, 7 CCIR 601,
8 the variant that `getYUVtoRGBMatrix` treats like CCIR 601. -/
inductive Transfer where
  | Unspecified
  | UserDefined
  | Linear
  | Logarithmic
  | PrintingDensity
  | SMPTE240M
  | CCIR709
  | CCIR601
  | CCIR601v
deriving DecidableEq

/-- Container format tag (`format_DPX` / `format_Cineon`). -/
inductive SrcFormat where
  | DPX
  | Cineon
deriving DecidableEq

/-- One planar channel group (`LogImageElement`). -/
structure LogImageElement where
  descriptor : Descriptor
  depth : Nat
  bitsPerSample : Nat
  packing : Nat
  transfer : Transfer
  dataOffset : Nat
  refLowData : Nat
  refHighData : Nat
  refLowQuantity : Rat
  refHighQuantity : Rat
  maxValue : Nat
deriving DecidableEq

instance : Inhabited LogImageElement :=
  ⟨{ descriptor := .Red, depth := 1, bitsPerSample := 10, packing := 1,
     transfer := .Linear, dataOffset := 0, refLowData := 0,
     refHighData := 1023, refLowQuantity := 0, refHighQuantity := 0,
     maxValue := 1023 }⟩

/-- The open-container handle (`LogImageFile`); the byte-I/O handle is kept
out of this record because the data-path functions receive their input
words explicitly in this model. -/
structure LogImageFile where
  width : Nat
  height : Nat
  depth : Nat
  numElements : Nat
  elements : List LogImageElement
  isMSB : Bool
  srcFormat : SrcFormat
  referenceBlack : Rat
  referenceWhite : Rat
  gamma : Rat
deriving DecidableEq

/-- Modelled from the spec: the endian helper `swap_ushort` (declared in
logImageCore.h, outside src/) byte-swaps a 16-bit value iff `isMSB`
differs from the host order; the host is modelled little-endian. -/
def swap_ushort (x : Nat) (isMSB : Bool) : Nat :=
  if isMSB then (x % 256) * 256 + (x / 256) % 256 else x

/-- Modelled from the spec: the endian helper `swap_uint` (declared in
logImageCore.h, outside src/) byte-swaps a 32-bit value iff `isMSB`
differs from the host order; the host is modelled little-endian. -/
def swap_uint (x : Nat) (isMSB : Bool) : Nat :=
  if isMSB then
    (x % 256) * 16777216 + (x / 256 % 256) * 65536 + (x / 65536 % 256) * 256 +
      x / 16777216 % 256
  else x

/-- Modelled from the spec: the float-to-code quantizer `float_uint`
(declared in logImageCore.h, outside src/):
`clamp(floor(f * maxValue + 0.5), 0, maxValue)` — negative inputs give 0,
inputs above `1 - 0.5 / maxValue` give `maxValue`. -/
def float_uint (value : Rat) (max : Nat) : Nat :=
  if value < 0 then 0
  else if value > 1 - 1 / (2 * (max : Rat)) then max
  else (⌊(max : Rat) * value + 1 / 2⌋).toNat

/-- Modelled from the spec: `clamp_float` (logImageCore.h, outside src/). -/
def clamp_float (x a b : Rat) : Rat :=
  if x < a then a else if x > b then b else x

/-- `getRowLength` (logImageCore.cc lines 206-236): row length in bytes
according to width and packing method; 0 for unsupported combinations. -/
def getRowLength (width : Nat) (logElement : LogImageElement) : Nat :=
  match logElement.bitsPerSample with
  | 1 => ((width * logElement.depth - 1) / 32 + 1) * 4
  | 8 => ((width * logElement.depth - 1) / 4 + 1) * 4
  | 10 =>
    if logElement.packing = 0 then
      ((width * logElement.depth * 10 - 1) / 32 + 1) * 4
    else if logElement.packing = 1 ∨ logElement.packing = 2 then
      ((width * logElement.depth - 1) / 3 + 1) * 4
    else 0
  | 12 =>
    if logElement.packing = 0 then
      ((width * logElement.depth * 12 - 1) / 32 + 1) * 4
    else if logElement.packing = 1 ∨ logElement.packing = 2 then
      width * logElement.depth * 2
    else 0
  | 16 => width * logElement.depth * 2
  | _ => 0

/-- Ceiling division, the `ceil(n / k)` of the specification's §4.2 table. -/
def ceilDiv (n k : Nat) : Nat := (n + k - 1) / k

/-- A token standing for one byte-I/O handle (`FILE *`). -/
structure ByteHandle where
  id : Nat
deriving DecidableEq

/-- The part of a `LogImageFile` that `logImageClose` inspects: the
byte-I/O handle slot, which may already be null. -/
structure CloseableHandle where
  file : Option ByteHandle
deriving DecidableEq

/-- Observable effect of one `logImageClose` call: which byte-I/O handles
got `fclose`d and whether the struct itself was freed. -/
structure CloseEffect where
  closedFiles : List ByteHandle
  freedStruct : Bool
deriving DecidableEq

/-- `logImageClose` (logImageCore.cc lines 184-193): a null pointer is
ignored; otherwise the byte-I/O handle is closed when non-null and the
struct is freed. -/
def logImageClose : Option CloseableHandle → CloseEffect
  | none => { closedFiles := [], freedStruct := false }
  | some h =>
    match h.file with
    | some f => { closedFiles := [f], freedStruct := true }
    | none => { closedFiles := [], freedStruct := true }

lemma pred_div_succ (n k : Nat) (hn : 1 ≤ n) (hk : 0 < k) :
    (n - 1) / k + 1 = (n + k - 1) / k := by
  have h : n + k - 1 = (n - 1) + k := by omega
  rw [h, Nat.add_div_right _ hk]

/-- C4: for every width ≥ 1 and element depth ≥ 1, `getRowLength` returns
exactly the specification's §4.2 table: `ceil(w*d/32)*4` for 1-bit,
`ceil(w*d/4)*4` for 8-bit, `ceil(w*d*10/32)*4` for 10-bit packing 0,
`ceil(w*d/3)*4` for 10-bit packing 1 or 2, `ceil(w*d*12/32)*4` for 12-bit
packing 0, and `w*d*2` for 12-bit packing 1 or 2 and for 16-bit. -/
theorem getRowLength_matches_table (w : Nat) (e : LogImageElement)
    (hw : 1 ≤ w) (hd : 1 ≤ e.depth) :
    (e.bitsPerSample = 1 → getRowLength w e = ceilDiv (w * e.depth) 32 * 4) ∧
    (e.bitsPerSample = 8 → getRowLength w e = ceilDiv (w * e.depth) 4 * 4) ∧
    (e.bitsPerSample = 10 → e.packing = 0 →
      getRowLength w e = ceilDiv (w * e.depth * 10) 32 * 4) ∧
    (e.bitsPerSample = 10 → e.packing = 1 ∨ e.packing = 2 →
      getRowLength w e = ceilDiv (w * e.depth) 3 * 4) ∧
    (e.bitsPerSample = 12 → e.packing = 0 →
      getRowLength w e = ceilDiv (w * e.depth * 12) 32 * 4) ∧
    (e.bitsPerSample = 12 → e.packing = 1 ∨ e.packing = 2 →
      getRowLength w e = w * e.depth * 2) ∧
    (e.bitsPerSample = 16 → getRowLength w e = w * e.depth * 2) := by
  have hwd : 1 ≤ w * e.depth := Nat.one_le_iff_ne_zero.mpr (by positivity)
  refine ⟨?_, ?_, ?_, ?_, ?_, ?_, ?_⟩
  · intro h1
    simp only [getRowLength, h1, ceilDiv]
    rw [pred_div_succ _ _ hwd (by norm_num)]
  · intro h8
    simp only [getRowLength, h8, ceilDiv]
    rw [pred_div_succ _ _ hwd (by norm_num)]
  · intro h10 hp
    have hwd10 : 1 ≤ w * e.depth * 10 := by nlinarith
    simp only [getRowLength, h10, hp, if_true, ceilDiv]
    rw [pred_div_succ _ _ hwd10 (by norm_num)]
  · intro h10 hp
    have hp0 : ¬ e.packing = 0 := by rcases hp with h | h <;> omega
    simp only [getRowLength, h10, hp0, if_false, hp, if_true, ceilDiv]
    rw [pred_div_succ _ _ hwd (by norm_num)]
  · intro h12 hp
    have hwd12 : 1 ≤ w * e.depth * 12 := by nlinarith
    simp only [getRowLength, h12, hp, if_true, ceilDiv]
    rw [pred_div_succ _ _ hwd12 (by norm_num)]
  · intro h12 hp
    have hp0 : ¬ e.packing = 0 := by rcases hp with h | h <;> omega
    simp only [getRowLength, h12, hp0, if_false, hp, if_true]
  · intro h16
    simp [getRowLength, h16]

/-- Concrete 10-bit filled element used to exercise the row-length table. -/
def rowLenElem : LogImageElement :=
  { descriptor := .RGB, depth := 1, bitsPerSample := 10, packing := 1,
    transfer := .Linear, dataOffset := 0, refLowData := 0,
    refHighData := 1023, refLowQuantity := 0, refHighQuantity := 0,
    maxValue := 1023 }

/-- Witness for C4: width 4, depth 1, 10-bit filled rows take
`ceil(4/3)*4 = 8` bytes. -/
theorem getRowLength_matches_table_witness : getRowLength 4 rowLenElem = 8 := by
  have h := (getRowLength_matches_table 4 rowLenElem (by decide)
    (by decide)).2.2.2.1 (by decide) (Or.inl (by decide))
  simpa using h

/-- C10: `logImageClose` is null-safe and touches nothing beyond what its
argument owns: a null handle is a no-op (nothing closed, nothing freed);
a handle whose `file` field is already null frees only the struct and
calls `fclose` on no byte-I/O handle; a handle with a live file closes
exactly that file and frees the struct. -/
theorem logImageClose_null_safe :
    logImageClose none = { closedFiles := [], freedStruct := false } ∧
    (∀ h : CloseableHandle, h.file = none →
      logImageClose (some h) = { closedFiles := [], freedStruct := true }) ∧
    (∀ (h : CloseableHandle) (f : ByteHandle), h.file = some f →
      logImageClose (some h) = { closedFiles := [f], freedStruct := true }) := by
  refine ⟨rfl, ?_, ?_⟩
  · intro h hf
    simp [logImageClose, hf]
  · intro h f hf
    simp [logImageClose, hf]

/-- Witness for C10: a handle whose file slot is already null frees only
the struct. -/
theorem logImageClose_null_safe_witness :
    logImageClose (some { file := none }) =
      { closedFiles := [], freedStruct := true } := by
  exact logImageClose_null_safe.2.1 { file := none } rfl

/-- Oracle for the transcendental C library calls (`powf`, `log10f`).
`pow b e` models `powf(b, e)` and `log10 x` models `log10f(x)`; every
theorem below that involves a `FloatFn` holds for every interpretation. -/
structure FloatFn where
  pow : Rat → Rat → Rat
  log10 : Rat → Rat

/-- `getLogToLinLut` (logImageCore.cc lines 1134-1184) as a function from
the integer code `i` to the LUT entry, with `softClip = 0` and
`negativeFilmGamma = 0.6` fixed as in the code. -/
def getLogToLinLut (F : FloatFn) (logImage : LogImageFile)
    (logElement : LogImageElement) (i : Nat) : Rat :=
  let step : Rat := logElement.refHighQuantity / (logElement.maxValue : Rat)
  let negativeFilmGamma : Rat := 0.6
  let softClip : Rat := 0
  let breakPoint : Rat := logImage.referenceWhite - softClip
  let gain : Rat := (logElement.maxValue : Rat) /
    (1 - F.pow 10 ((logImage.referenceBlack - logImage.referenceWhite) * step /
      negativeFilmGamma * logImage.gamma / 1.7))
  let offset : Rat := gain - (logElement.maxValue : Rat)
  let kneeOffset : Rat :=
    F.pow 10 ((breakPoint - logImage.referenceWhite) * step /
      negativeFilmGamma * logImage.gamma / 1.7) * gain - offset
  let kneeGain : Rat := ((logElement.maxValue : Rat) - kneeOffset) /
    F.pow (5 * softClip) (softClip / 100)
  if (i : Rat) < logImage.referenceBlack then 0
  else if (i : Rat) > breakPoint then
    (F.pow ((i : Rat) - breakPoint) (softClip / 100) * kneeGain + kneeOffset) /
      (logElement.maxValue : Rat)
  else
    (F.pow 10 (((i : Rat) - logImage.referenceWhite) * step /
      negativeFilmGamma * logImage.gamma / 1.7) * gain - offset) /
      (logElement.maxValue : Rat)

/-- `getLinToLogLut` (logImageCore.cc lines 1107-1132) as a function from
the integer code `i` to the LUT entry. -/
def getLinToLogLut (F : FloatFn) (logImage : LogImageFile)
    (logElement : LogImageElement) (i : Nat) : Rat :=
  let step : Rat := logElement.refHighQuantity / (logElement.maxValue : Rat)
  let negativeFilmGamma : Rat := 0.6
  let gain : Rat := (logElement.maxValue : Rat) /
    (1 - F.pow 10 ((logImage.referenceBlack - logImage.referenceWhite) * step /
      negativeFilmGamma * logImage.gamma / 1.7))
  let offset : Rat := gain - (logElement.maxValue : Rat)
  (logImage.referenceWhite +
      F.log10 (F.pow (((i : Rat) + offset) / gain) (1.7 / logImage.gamma)) /
        (step / negativeFilmGamma)) /
    (logElement.maxValue : Rat)

/-- `getLinToSrgbLut` (logImageCore.cc lines 1186-1205). -/
def getLinToSrgbLut (F : FloatFn) (logElement : LogImageElement) (i : Nat) :
    Rat :=
  let col : Rat := (i : Rat) / (logElement.maxValue : Rat)
  if col < 0.0031308 then (if col < 0 then 0 else col * 12.92)
  else 1.055 * F.pow col (1 / 2.4) - 0.055

/-- `getSrgbToLinLut` (logImageCore.cc lines 1207-1226). -/
def getSrgbToLinLut (F : FloatFn) (logElement : LogImageElement) (i : Nat) :
    Rat :=
  let col : Rat := (i : Rat) / (logElement.maxValue : Rat)
  if col < 0.04045 then (if col < 0 then 0 else col * (1 / 12.92))
  else F.pow ((col + 0.055) * (1 / 1.055)) 2.4

/-- C5: every log-to-lin LUT entry at a code at or below `referenceBlack`
is exactly 0: below `referenceBlack` by the first branch, and at
`i = referenceBlack` because the else-branch expression
`pow10(E) * gain - (gain - maxValue)` cancels exactly when the exponent
equals the one used to build `gain` (the cancellation needs
`1 - pow10(E) ≠ 0`, `maxValue ≠ 0` and `referenceBlack ≤ referenceWhite`
so that the knee branch is not taken). -/
lemma cancel_at_refblack (p m : Rat) (hp : 1 - p ≠ 0) (hm : m ≠ 0) :
    (p * (m / (1 - p)) - (m / (1 - p) - m)) / m = 0 := by
  field_simp
  ring

theorem logToLinLut_zero_at_or_below_refBlack (F : FloatFn)
    (logImage : LogImageFile) (logElement : LogImageElement) (i : Nat)
    (hbw : logImage.referenceBlack ≤ logImage.referenceWhite)
    (hmax : (logElement.maxValue : Rat) ≠ 0)
    (hpow : 1 - F.pow 10 ((logImage.referenceBlack - logImage.referenceWhite) *
        (logElement.refHighQuantity / (logElement.maxValue : Rat)) /
        0.6 * logImage.gamma / 1.7) ≠ 0)
    (hi : (i : Rat) ≤ logImage.referenceBlack) :
    getLogToLinLut F logImage logElement i = 0 := by
  rcases lt_or_eq_of_le hi with hlt | heq
  · simp only [getLogToLinLut]
    rw [if_pos hlt]
  · simp only [getLogToLinLut]
    rw [heq]
    rw [if_neg (lt_irrefl _), if_neg (by simpa using hbw)]
    simpa using cancel_at_refblack
      (F.pow 10 ((logImage.referenceBlack - logImage.referenceWhite) *
        (logElement.refHighQuantity / (logElement.maxValue : Rat)) /
        0.6 * logImage.gamma / 1.7))
      (logElement.maxValue : Rat) hpow hmax

/-- A trivial interpretation of the transcendental oracle, used only to
instantiate universally quantified statements at a concrete input. -/
def constFn : FloatFn where
  pow := fun _ _ => 1 / 2
  log10 := fun _ => 0

/-- Concrete DPX-style file header for the LUT scenario S3:
referenceBlack 95, referenceWhite 685, gamma 1. -/
def lutImg : LogImageFile :=
  { width := 1, height := 1, depth := 3, numElements := 1, elements := [],
    isMSB := false, srcFormat := .DPX, referenceBlack := 95,
    referenceWhite := 685, gamma := 1 }

/-- Concrete 10-bit element for the LUT scenario S3. -/
def lutElem : LogImageElement :=
  { descriptor := .RGB, depth := 3, bitsPerSample := 10, packing := 1,
    transfer := .PrintingDensity, dataOffset := 0, refLowData := 95,
    refHighData := 685, refLowQuantity := 0, refHighQuantity := 2.048,
    maxValue := 1023 }

/-- Witness for C5: with referenceBlack 95, referenceWhite 685, gamma 1 the
LUT is 0 at index 95 (the scenario S3 value) and at an index below 95. -/
theorem logToLinLut_zero_at_or_below_refBlack_witness :
    getLogToLinLut constFn lutImg lutElem 95 = 0 ∧
    getLogToLinLut constFn lutImg lutElem 42 = 0 := by
  constructor
  · exact logToLinLut_zero_at_or_below_refBlack constFn lutImg lutElem 95
      (by norm_num [lutImg]) (by norm_num [lutElem])
      (by norm_num [constFn]) (by norm_num [lutImg])
  · exact logToLinLut_zero_at_or_below_refBlack constFn lutImg lutElem 42
      (by norm_num [lutImg]) (by norm_num [lutElem])
      (by norm_num [constFn]) (by norm_num [lutImg])

/-- `getYUVtoRGBMatrix` (logImageCore.cc lines 1043-1105): `some matrix`
models the 0 return, `none` the non-zero return for an unknown transfer.
Note that `refLowData = refHighData` is not rejected: the C code divides
by zero there (yielding an infinite `scaleY`); rational division by zero
yields 0 here, but no theorem below depends on the matrix values in that
degenerate case, only on the some/none structure, which the C return code
shares. -/
def getYUVtoRGBMatrix (logElement : LogImageElement) : Option (List Rat) :=
  let refHighData : Rat := (logElement.refHighData : Rat) / (logElement.maxValue : Rat)
  let refLowData : Rat := (logElement.refLowData : Rat) / (logElement.maxValue : Rat)
  let scaleY : Rat := 1 / (refHighData - refLowData)
  let scaleCbCr : Rat := scaleY * ((940 - 64) / (960 - 64))
  match logElement.transfer with
  | .Linear =>
    some [1 * scaleY, 1 * scaleCbCr, 1 * scaleCbCr,
          1 * scaleY, 1 * scaleCbCr, 1 * scaleCbCr,
          1 * scaleY, 1 * scaleCbCr, 1 * scaleCbCr]
  | .SMPTE240M =>
    some [1 * scaleY, 0 * scaleCbCr, 1.5756 * scaleCbCr,
          1 * scaleY, -0.2253 * scaleCbCr, -0.5 * scaleCbCr,
          1 * scaleY, 1.827 * scaleCbCr, 0 * scaleCbCr]
  | .CCIR709 =>
    some [1 * scaleY, 0 * scaleCbCr, 1.5748 * scaleCbCr,
          1 * scaleY, -0.187324 * scaleCbCr, -0.468124 * scaleCbCr,
          1 * scaleY, 1.8556 * scaleCbCr, 0 * scaleCbCr]
  | .CCIR601 | .CCIR601v =>
    some [1 * scaleY, 0 * scaleCbCr, 1.402 * scaleCbCr,
          1 * scaleY, -0.344136 * scaleCbCr, -0.714136 * scaleCbCr,
          1 * scaleY, 1.772 * scaleCbCr, 0 * scaleCbCr]
  | _ => none

/-- Matrix entry access, `conversionMatrix[k]`. -/
def mat (m : List Rat) (k : Nat) : Rat := m.getD k 0

/-- `convertCbYCr_RGBA` (logImageCore.cc lines 1437-1467). -/
def convertCbYCr_RGBA (logImage : LogImageFile) (logElement : LogImageElement)
    (src : List Rat) : Option (List Rat) :=
  match getYUVtoRGBMatrix logElement with
  | none => none
  | some m =>
    let refLowData : Rat := (logElement.refLowData : Rat) / (logElement.maxValue : Rat)
    some ((List.range (logImage.width * logImage.height)).flatMap fun i =>
      let cb := src.getD (3 * i) 0 - 0.5
      let y := src.getD (3 * i + 1) 0 - refLowData
      let cr := src.getD (3 * i + 2) 0 - 0.5
      [clamp_float (y * mat m 0 + cb * mat m 1 + cr * mat m 2) 0 1,
       clamp_float (y * mat m 3 + cb * mat m 4 + cr * mat m 5) 0 1,
       clamp_float (y * mat m 6 + cb * mat m 7 + cr * mat m 8) 0 1,
       1])

/-- `convertCbYCrA_RGBA` (logImageCore.cc lines 1469-1500). -/
def convertCbYCrA_RGBA (logImage : LogImageFile) (logElement : LogImageElement)
    (src : List Rat) : Option (List Rat) :=
  match getYUVtoRGBMatrix logElement with
  | none => none
  | some m =>
    let refLowData : Rat := (logElement.refLowData : Rat) / (logElement.maxValue : Rat)
    some ((List.range (logImage.width * logImage.height)).flatMap fun i =>
      let cb := src.getD (4 * i) 0 - 0.5
      let y := src.getD (4 * i + 1) 0 - refLowData
      let cr := src.getD (4 * i + 2) 0 - 0.5
      let a := src.getD (4 * i + 3) 0
      [clamp_float (y * mat m 0 + cb * mat m 1 + cr * mat m 2) 0 1,
       clamp_float (y * mat m 3 + cb * mat m 4 + cr * mat m 5) 0 1,
       clamp_float (y * mat m 6 + cb * mat m 7 + cr * mat m 8) 0 1,
       a])

/-- `convertCbYCrY_RGBA` (logImageCore.cc lines 1502-1552): one Cb,Y1,Cr,Y2
quadruple yields two RGBA pixels sharing the chroma pair. -/
def convertCbYCrY_RGBA (logImage : LogImageFile) (logElement : LogImageElement)
    (src : List Rat) : Option (List Rat) :=
  match getYUVtoRGBMatrix logElement with
  | none => none
  | some m =>
    let refLowData : Rat := (logElement.refLowData : Rat) / (logElement.maxValue : Rat)
    some ((List.range (logImage.width * logImage.height / 2)).flatMap fun i =>
      let cb := src.getD (4 * i) 0 - 0.5
      let y1 := src.getD (4 * i + 1) 0 - refLowData
      let cr := src.getD (4 * i + 2) 0 - 0.5
      let y2 := src.getD (4 * i + 3) 0 - refLowData
      [clamp_float (y1 * mat m 0 + cb * mat m 1 + cr * mat m 2) 0 1,
       clamp_float (y1 * mat m 3 + cb * mat m 4 + cr * mat m 5) 0 1,
       clamp_float (y1 * mat m 6 + cb * mat m 7 + cr * mat m 8) 0 1,
       1,
       clamp_float (y2 * mat m 0 + cb * mat m 1 + cr * mat m 2) 0 1,
       clamp_float (y2 * mat m 3 + cb * mat m 4 + cr * mat m 5) 0 1,
       clamp_float (y2 * mat m 6 + cb * mat m 7 + cr * mat m 8) 0 1,
       1])

/-- `convertCbYACrYA_RGBA` (logImageCore.cc lines 1554-1606). -/
def convertCbYACrYA_RGBA (logImage : LogImageFile) (logElement : LogImageElement)
    (src : List Rat) : Option (List Rat) :=
  match getYUVtoRGBMatrix logElement with
  | none => none
  | some m =>
    let refLowData : Rat := (logElement.refLowData : Rat) / (logElement.maxValue : Rat)
    some ((List.range (logImage.width * logImage.height / 2)).flatMap fun i =>
      let cb := src.getD (6 * i) 0 - 0.5
      let y1 := src.getD (6 * i + 1) 0 - refLowData
      let a1 := src.getD (6 * i + 2) 0
      let cr := src.getD (6 * i + 3) 0 - 0.5
      let y2 := src.getD (6 * i + 4) 0 - refLowData
      let a2 := src.getD (6 * i + 5) 0
      [clamp_float (y1 * mat m 0 + cb * mat m 1 + cr * mat m 2) 0 1,
       clamp_float (y1 * mat m 3 + cb * mat m 4 + cr * mat m 5) 0 1,
       clamp_float (y1 * mat m 6 + cb * mat m 7 + cr * mat m 8) 0 1,
       a1,
       clamp_float (y2 * mat m 0 + cb * mat m 1 + cr * mat m 2) 0 1,
       clamp_float (y2 * mat m 3 + cb * mat m 4 + cr * mat m 5) 0 1,
       clamp_float (y2 * mat m 6 + cb * mat m 7 + cr * mat m 8) 0 1,
       a2])

/-- `convertLuminance_RGBA` (logImageCore.cc lines 1608-1632). -/
def convertLuminance_RGBA (logImage : LogImageFile) (logElement : LogImageElement)
    (src : List Rat) : Option (List Rat) :=
  match getYUVtoRGBMatrix logElement with
  | none => none
  | some m =>
    let refLowData : Rat := (logElement.refLowData : Rat) / (logElement.maxValue : Rat)
    some ((List.range (logImage.width * logImage.height)).flatMap fun i =>
      let value := clamp_float ((src.getD i 0 - refLowData) * mat m 0) 0 1
      [value, value, value, 1])

/-- `convertYA_RGBA` (logImageCore.cc lines 1634-1658). -/
def convertYA_RGBA (logImage : LogImageFile) (logElement : LogImageElement)
    (src : List Rat) : Option (List Rat) :=
  match getYUVtoRGBMatrix logElement with
  | none => none
  | some m =>
    let refLowData : Rat := (logElement.refLowData : Rat) / (logElement.maxValue : Rat)
    some ((List.range (logImage.width * logImage.height)).flatMap fun i =>
      let value := clamp_float ((src.getD (2 * i) 0 - refLowData) * mat m 0) 0 1
      [value, value, value, src.getD (2 * i + 1) 0])

/-- Concrete 1×1 file for the Y′CbCr scenarios. -/
def yuvImg : LogImageFile :=
  { width := 1, height := 1, depth := 3, numElements := 1, elements := [],
    isMSB := false, srcFormat := .DPX, referenceBlack := 95,
    referenceWhite := 685, gamma := 1 }

/-- CbYCr element with `refLowData = refHighData` and a Linear transfer. -/
def degenerateYuvElem : LogImageElement :=
  { descriptor := .CbYCr, depth := 3, bitsPerSample := 10, packing := 1,
    transfer := .Linear, dataOffset := 0, refLowData := 100,
    refHighData := 100, refLowQuantity := 0, refHighQuantity := 0,
    maxValue := 1023 }

/-- Counterexample to C2: a CbYCr element with `refLowData = refHighData`
and transfer Linear is NOT rejected — `convertCbYCr_RGBA` succeeds (the C
code returns 0 after silently dividing by zero in `scaleY`), contradicting
the claim that the conversion returns a non-zero result whenever
`refLowData = refHighData`. -/
theorem cbycr_equal_refs_succeeds :
    degenerateYuvElem.refLowData = degenerateYuvElem.refHighData ∧
    (convertCbYCr_RGBA yuvImg degenerateYuvElem [0.5, 0.5, 0.5]).isSome = true := by
  constructor
  · rfl
  · decide

/-- C2 (amended): every converter of the Y′CbCr family fails iff the
transfer is not one of {Linear, SMPTE 240M, CCIR 709, CCIR 601, 8}, i.e.
exactly when `getYUVtoRGBMatrix` rejects the transfer; the relation
`refLowData = refHighData` plays no role in the result code. -/
theorem ycbcr_fails_iff_transfer_unsupported (logImage : LogImageFile)
    (logElement : LogImageElement) (src : List Rat) :
    (convertCbYCr_RGBA logImage logElement src = none ↔
      logElement.transfer ∉
        [Transfer.Linear, .SMPTE240M, .CCIR709, .CCIR601, .CCIR601v]) ∧
    (convertCbYCrA_RGBA logImage logElement src = none ↔
      logElement.transfer ∉
        [Transfer.Linear, .SMPTE240M, .CCIR709, .CCIR601, .CCIR601v]) ∧
    (convertCbYCrY_RGBA logImage logElement src = none ↔
      logElement.transfer ∉
        [Transfer.Linear, .SMPTE240M, .CCIR709, .CCIR601, .CCIR601v]) ∧
    (convertCbYACrYA_RGBA logImage logElement src = none ↔
      logElement.transfer ∉
        [Transfer.Linear, .SMPTE240M, .CCIR709, .CCIR601, .CCIR601v]) ∧
    (convertLuminance_RGBA logImage logElement src = none ↔
      logElement.transfer ∉
        [Transfer.Linear, .SMPTE240M, .CCIR709, .CCIR601, .CCIR601v]) ∧
    (convertYA_RGBA logImage logElement src = none ↔
      logElement.transfer ∉
        [Transfer.Linear, .SMPTE240M, .CCIR709, .CCIR601, .CCIR601v]) := by
  cases h : logElement.transfer <;>
    simp [convertCbYCr_RGBA, convertCbYCrA_RGBA, convertCbYCrY_RGBA,
      convertCbYACrYA_RGBA, convertLuminance_RGBA, convertYA_RGBA,
      getYUVtoRGBMatrix, h]

/-- `logImageElementGetData12` (logImageCore.cc lines 916-952): one 16-bit
word per sample; packing 1 takes the upper 12 bits, packing 2 divides the
whole (unmasked) word by 4095; `none` models the EOF error return. -/
def logImageElementGetData12 (logImage : LogImageFile)
    (logElement : LogImageElement) (words : List Nat) : Option (List Rat) :=
  let numSamples := logImage.width * logImage.height * logElement.depth
  if numSamples ≤ words.length then
    some ((List.range numSamples).map fun sampleIndex =>
      let pixel := swap_ushort (words.getD sampleIndex 0) logImage.isMSB
      if logElement.packing = 1 then ((pixel / 16 : Nat) : Rat) / 4095
      else if logElement.packing = 2 then (pixel : Rat) / 4095
      else 0)
  else none

/-- 1×1, depth-1 little-endian file for the 12-bit scenarios. -/
def tinyImg : LogImageFile :=
  { width := 1, height := 1, depth := 1, numElements := 1, elements := [],
    isMSB := false, srcFormat := .DPX, referenceBlack := 95,
    referenceWhite := 685, gamma := 1 }

/-- 12-bit filled element with packing 2. -/
def fill12Elem : LogImageElement :=
  { descriptor := .Luminance, depth := 1, bitsPerSample := 12, packing := 2,
    transfer := .Linear, dataOffset := 0, refLowData := 0,
    refHighData := 4095, refLowQuantity := 0, refHighQuantity := 0,
    maxValue := 4095 }

/-- Counterexample to C3: the packing-2 12-bit unpacker does NOT mask the
word with 0xFFF: the word 4096 (only a padding bit set) yields the sample
4096/4095, which is neither `(4096 AND 0xFFF)/4095 = 0` nor within
`[0, 1]`. -/
theorem getData12_packing2_no_mask :
    logImageElementGetData12 tinyImg fill12Elem [4096] =
      some [(4096 : Rat) / 4095] ∧
    ((4096 : Rat) / 4095 ≠ ((4096 % 4096 : Nat) : Rat) / 4095 ∧
      ¬ (4096 : Rat) / 4095 ≤ 1) := by
  refine ⟨?_, by norm_num, by norm_num⟩
  simp [logImageElementGetData12, tinyImg, fill12Elem, swap_ushort,
    List.range_succ]

/-- C3 (amended): with packing 2 the 12-bit filled unpacker maps each
(endian-resolved) 16-bit word `p` to `p / 4095` with no masking; the
samples therefore lie in `[0, 1]` exactly when every word keeps its four
padding bits clear, i.e. `p ≤ 4095`, which the theorem assumes. -/
theorem getData12_packing2_formula (logImage : LogImageFile)
    (logElement : LogImageElement) (words : List Nat)
    (hp : logElement.packing = 2)
    (hlen : logImage.width * logImage.height * logElement.depth ≤ words.length)
    (hpad : ∀ x ∈ words, swap_ushort x logImage.isMSB ≤ 4095) :
    logImageElementGetData12 logImage logElement words =
      some ((List.range (logImage.width * logImage.height * logElement.depth)).map
        fun k => ((swap_ushort (words.getD k 0) logImage.isMSB : Nat) : Rat) / 4095) ∧
    ∀ q ∈ (List.range (logImage.width * logImage.height * logElement.depth)).map
        (fun k => ((swap_ushort (words.getD k 0) logImage.isMSB : Nat) : Rat) / 4095),
      0 ≤ q ∧ q ≤ 1 := by
  have hp1 : ¬ logElement.packing = 1 := by omega
  constructor
  · simp only [logImageElementGetData12, if_pos hlen, hp1, if_false, hp, if_true]
    norm_num
  · intro q hq
    simp only [List.mem_map, List.mem_range] at hq
    obtain ⟨k, hk, rfl⟩ := hq
    have hb : swap_ushort (words.getD k 0) logImage.isMSB ≤ 4095 := by
      apply hpad
      rw [List.getD_eq_getElem _ _ (by omega)]
      exact List.getElem_mem _
    constructor
    · positivity
    · rw [div_le_one (by norm_num)]
      exact_mod_cast hb

/-- Witness for C3 (amended): a clean word 4095 decodes to 4095/4095. -/
theorem getData12_packing2_formula_witness :
    logImageElementGetData12 tinyImg fill12Elem [4095] =
      some [(4095 : Rat) / 4095] := by
  have h := (getData12_packing2_formula tinyImg fill12Elem [4095] rfl
    (by norm_num [tinyImg, fill12Elem])
    (by intro x hx
        simp only [List.mem_singleton] at hx
        subst hx
        norm_num [swap_ushort, tinyImg])).1
  simpa [tinyImg, fill12Elem, swap_ushort, List.range_succ] using h

/-- `convertRGB_RGBA` (logImageCore.cc lines 1283-1336): 3 samples in, 4
out with alpha fixed to 1; the printing-density branch routes the three
color samples through the log LUTs. -/
def convertRGB_RGBA (F : FloatFn) (logImage : LogImageFile)
    (logElement : LogImageElement) (src : List Rat)
    (elementIsSource : Bool) : Option (List Rat) :=
  match logElement.transfer with
  | .Unspecified | .UserDefined | .Linear | .Logarithmic =>
    some ((List.range (logImage.width * logImage.height)).flatMap fun i =>
      [src.getD (3 * i) 0, src.getD (3 * i + 1) 0, src.getD (3 * i + 2) 0, 1])
  | .PrintingDensity =>
    let lut := if elementIsSource then getLogToLinLut F logImage logElement
      else getLinToLogLut F logImage logElement
    some ((List.range (logImage.width * logImage.height)).flatMap fun i =>
      [lut (float_uint (src.getD (3 * i) 0) logElement.maxValue),
       lut (float_uint (src.getD (3 * i + 1) 0) logElement.maxValue),
       lut (float_uint (src.getD (3 * i + 2) 0) logElement.maxValue), 1])
  | _ => none

/-- `convertRGBA_RGB` (logImageCore.cc lines 1228-1281): 4 samples in, 3
out, the source alpha is skipped. -/
def convertRGBA_RGB (F : FloatFn) (logImage : LogImageFile)
    (logElement : LogImageElement) (src : List Rat)
    (elementIsSource : Bool) : Option (List Rat) :=
  match logElement.transfer with
  | .Unspecified | .UserDefined | .Linear | .Logarithmic =>
    some ((List.range (logImage.width * logImage.height)).flatMap fun i =>
      [src.getD (4 * i) 0, src.getD (4 * i + 1) 0, src.getD (4 * i + 2) 0])
  | .PrintingDensity =>
    let lut := if elementIsSource then getLogToLinLut F logImage logElement
      else getLinToLogLut F logImage logElement
    some ((List.range (logImage.width * logImage.height)).flatMap fun i =>
      [lut (float_uint (src.getD (4 * i) 0) logElement.maxValue),
       lut (float_uint (src.getD (4 * i + 1) 0) logElement.maxValue),
       lut (float_uint (src.getD (4 * i + 2) 0) logElement.maxValue)])
  | _ => none

/-- `convertRGBA_RGBA` (logImageCore.cc lines 1338-1381): note that
`transfer_Unspecified` is NOT among the accepted cases (unlike
`convertRGB_RGBA`), so it falls through to the failing default; the
accepted non-PD transfers perform the `memcpy` of `4 * width * height`
floats. -/
def convertRGBA_RGBA (F : FloatFn) (logImage : LogImageFile)
    (logElement : LogImageElement) (src : List Rat)
    (elementIsSource : Bool) : Option (List Rat) :=
  match logElement.transfer with
  | .UserDefined | .Linear | .Logarithmic =>
    some ((List.range (4 * (logImage.width * logImage.height))).map fun k =>
      src.getD k 0)
  | .PrintingDensity =>
    let lut := if elementIsSource then getLogToLinLut F logImage logElement
      else getLinToLogLut F logImage logElement
    some ((List.range (logImage.width * logImage.height)).flatMap fun i =>
      [lut (float_uint (src.getD (4 * i) 0) logElement.maxValue),
       lut (float_uint (src.getD (4 * i + 1) 0) logElement.maxValue),
       lut (float_uint (src.getD (4 * i + 2) 0) logElement.maxValue),
       src.getD (4 * i + 3) 0])
  | _ => none

/-- `convertABGR_RGBA` (logImageCore.cc lines 1383-1435): the loop body is
`src_ptr += 4` followed by four `*(dst_ptr++) = *(src_ptr--)` reads and a
final `src_ptr += 4`, so for pixel `i` it reads source indices
`4i+4, 4i+3, 4i+2, 4i+1` — a window shifted one past the pixel, whose
first read for the last pixel is out of bounds (modelled by the `getD`
default 0). `transfer_Unspecified` falls through to the failing default. -/
def convertABGR_RGBA (F : FloatFn) (logImage : LogImageFile)
    (logElement : LogImageElement) (src : List Rat)
    (elementIsSource : Bool) : Option (List Rat) :=
  match logElement.transfer with
  | .UserDefined | .Linear | .Logarithmic =>
    some ((List.range (logImage.width * logImage.height)).flatMap fun i =>
      [src.getD (4 * i + 4) 0, src.getD (4 * i + 3) 0,
       src.getD (4 * i + 2) 0, src.getD (4 * i + 1) 0])
  | .PrintingDensity =>
    let lut := if elementIsSource then getLogToLinLut F logImage logElement
      else getLinToLogLut F logImage logElement
    some ((List.range (logImage.width * logImage.height)).flatMap fun i =>
      [lut (float_uint (src.getD (4 * i + 4) 0) logElement.maxValue),
       lut (float_uint (src.getD (4 * i + 3) 0) logElement.maxValue),
       lut (float_uint (src.getD (4 * i + 2) 0) logElement.maxValue),
       src.getD (4 * i + 1) 0])
  | _ => none

lemma flatMap_fixed_length (n m : Nat) (f : Nat → List Rat)
    (hf : ∀ i, (f i).length = m) :
    ((List.range n).flatMap f).length = n * m := by
  induction n with
  | zero => simp
  | succ k ih =>
    rw [List.range_succ, List.flatMap_append, List.length_append, ih]
    simp [hf, Nat.succ_mul]

lemma flatMap_fixed_getD (n m : Nat) (f : Nat → List Rat)
    (hf : ∀ i, (f i).length = m) (j r : Nat) (hj : j < n) (hr : r < m) :
    ((List.range n).flatMap f).getD (m * j + r) 0 = (f j).getD r 0 := by
  induction n with
  | zero => omega
  | succ k ih =>
    rw [List.range_succ, List.flatMap_append]
    rcases Nat.lt_or_ge j k with hjk | hjk
    · rw [List.getD_append]
      · exact ih hjk
      · rw [flatMap_fixed_length k m f hf]
        have h1 : m * (j + 1) ≤ m * k := Nat.mul_le_mul_left m hjk
        have h2 : m * (j + 1) = m * j + m := Nat.mul_succ m j
        have h3 : k * m = m * k := Nat.mul_comm k m
        omega
    · have hj2 : j = k := by omega
      subst hj2
      rw [List.getD_append_right]
      · rw [flatMap_fixed_length j m f hf]
        have h3 : j * m = m * j := Nat.mul_comm j m
        rw [h3]
        simp
      · rw [flatMap_fixed_length j m f hf]
        have h3 : j * m = m * j := Nat.mul_comm j m
        omega

lemma range_map_getD (n k : Nat) (f : Nat → Rat) (hk : k < n) :
    ((List.range n).map f).getD k 0 = f k := by
  rw [List.getD_eq_getElem _ _ (by simpa using hk)]
  simp

lemma flatMap4_getD (n : Nat) (A B C D : Nat → Rat) (i : Nat) (hi : i < n) :
    (((List.range n).flatMap fun j => [A j, B j, C j, D j]).getD (4 * i) 0 = A i) ∧
    (((List.range n).flatMap fun j => [A j, B j, C j, D j]).getD (4 * i + 1) 0 = B i) ∧
    (((List.range n).flatMap fun j => [A j, B j, C j, D j]).getD (4 * i + 2) 0 = C i) ∧
    (((List.range n).flatMap fun j => [A j, B j, C j, D j]).getD (4 * i + 3) 0 = D i) := by
  have hf : ∀ j, ([A j, B j, C j, D j]).length = 4 := fun j => rfl
  refine ⟨?_, ?_, ?_, ?_⟩
  · have h := flatMap_fixed_getD n 4 _ hf i 0 hi (by norm_num)
    simpa using h
  · exact flatMap_fixed_getD n 4 _ hf i 1 hi (by norm_num)
  · exact flatMap_fixed_getD n 4 _ hf i 2 hi (by norm_num)
  · exact flatMap_fixed_getD n 4 _ hf i 3 hi (by norm_num)

lemma flatMap3_getD (n : Nat) (A B C : Nat → Rat) (i : Nat) (hi : i < n) :
    (((List.range n).flatMap fun j => [A j, B j, C j]).getD (3 * i) 0 = A i) ∧
    (((List.range n).flatMap fun j => [A j, B j, C j]).getD (3 * i + 1) 0 = B i) ∧
    (((List.range n).flatMap fun j => [A j, B j, C j]).getD (3 * i + 2) 0 = C i) := by
  have hf : ∀ j, ([A j, B j, C j]).length = 3 := fun j => rfl
  refine ⟨?_, ?_, ?_⟩
  · have h := flatMap_fixed_getD n 3 _ hf i 0 hi (by norm_num)
    simpa using h
  · exact flatMap_fixed_getD n 3 _ hf i 1 hi (by norm_num)
  · exact flatMap_fixed_getD n 3 _ hf i 2 hi (by norm_num)

/-- RGBA element with transfer Unspecified (rejected by
`convertRGBA_RGBA`). -/
def unspecRGBAElem : LogImageElement :=
  { descriptor := .RGBA, depth := 4, bitsPerSample := 16, packing := 0,
    transfer := .Unspecified, dataOffset := 0, refLowData := 0,
    refHighData := 65535, refLowQuantity := 0, refHighQuantity := 0,
    maxValue := 65535 }

/-- ABGR element with transfer Linear. -/
def linearABGRElem : LogImageElement :=
  { descriptor := .ABGR, depth := 4, bitsPerSample := 16, packing := 0,
    transfer := .Linear, dataOffset := 0, refLowData := 0,
    refHighData := 65535, refLowQuantity := 0, refHighQuantity := 0,
    maxValue := 65535 }

/-- RGBA element with transfer Linear. -/
def linearRGBAElem : LogImageElement :=
  { descriptor := .RGBA, depth := 4, bitsPerSample := 16, packing := 0,
    transfer := .Linear, dataOffset := 0, refLowData := 0,
    refHighData := 65535, refLowQuantity := 0, refHighQuantity := 0,
    maxValue := 65535 }

/-- Counterexample to C6: (a) an RGBA element with transfer Unspecified
makes `convertRGBA_RGBA` fail even though the claim promises success for
all of {Unspecified, UserDefined, Linear, Logarithmic} on all three
reorder converters; (b) `convertABGR_RGBA` on the single ABGR pixel
(A,B,G,R) = (10,20,30,40) with transfer Linear produces [0,40,30,20]
(a shifted window starting one sample past the pixel), not the channel
reversal [40,30,20,10]. -/
theorem reorder_unspecified_and_abgr_divergence :
    convertRGBA_RGBA constFn tinyImg unspecRGBAElem [10, 20, 30, 40] true = none ∧
    convertABGR_RGBA constFn tinyImg linearABGRElem [10, 20, 30, 40] true =
      some [0, 40, 30, 20] ∧
    ([0, 40, 30, 20] : List Rat) ≠ [40, 30, 20, 10] := by
  refine ⟨rfl, ?_, by norm_num⟩
  simp [convertABGR_RGBA, tinyImg, linearABGRElem, List.range_succ]

/-- C6 (amended): for transfers {Unspecified, UserDefined, Linear,
Logarithmic} the RGB reorder succeeds as a straight copy with alpha
defaulted to 1 on the read path and an alpha-dropping copy on the write
path; `convertRGBA_RGBA` and `convertABGR_RGBA` succeed only for
{UserDefined, Linear, Logarithmic} — RGBA as a straight copy, ABGR as the
shifted window reading source indices 4i+4..4i+1 (not a channel
reversal) — and both fail on transfer Unspecified. -/
theorem reorder_transfer_dispatch (F : FloatFn) (img : LogImageFile)
    (e : LogImageElement) (src : List Rat) :
    (e.transfer = .Unspecified ∨ e.transfer = .UserDefined ∨
        e.transfer = .Linear ∨ e.transfer = .Logarithmic →
      (∃ out, convertRGB_RGBA F img e src true = some out ∧
        out.length = img.width * img.height * 4 ∧
        ∀ i < img.width * img.height,
          out.getD (4 * i) 0 = src.getD (3 * i) 0 ∧
          out.getD (4 * i + 1) 0 = src.getD (3 * i + 1) 0 ∧
          out.getD (4 * i + 2) 0 = src.getD (3 * i + 2) 0 ∧
          out.getD (4 * i + 3) 0 = 1) ∧
      (∃ out, convertRGBA_RGB F img e src false = some out ∧
        out.length = img.width * img.height * 3 ∧
        ∀ i < img.width * img.height,
          out.getD (3 * i) 0 = src.getD (4 * i) 0 ∧
          out.getD (3 * i + 1) 0 = src.getD (4 * i + 1) 0 ∧
          out.getD (3 * i + 2) 0 = src.getD (4 * i + 2) 0)) ∧
    (e.transfer = .UserDefined ∨ e.transfer = .Linear ∨
        e.transfer = .Logarithmic →
      (∃ out, convertRGBA_RGBA F img e src true = some out ∧
        ∀ k < 4 * (img.width * img.height), out.getD k 0 = src.getD k 0) ∧
      (∃ out, convertABGR_RGBA F img e src true = some out ∧
        ∀ i < img.width * img.height,
          out.getD (4 * i) 0 = src.getD (4 * i + 4) 0 ∧
          out.getD (4 * i + 1) 0 = src.getD (4 * i + 3) 0 ∧
          out.getD (4 * i + 2) 0 = src.getD (4 * i + 2) 0 ∧
          out.getD (4 * i + 3) 0 = src.getD (4 * i + 1) 0)) ∧
    (e.transfer = .Unspecified →
      convertRGBA_RGBA F img e src true = none ∧
      convertABGR_RGBA F img e src true = none) := by
  refine ⟨?_, ?_, ?_⟩
  · intro htr
    have h1 : convertRGB_RGBA F img e src true =
        some ((List.range (img.width * img.height)).flatMap fun i =>
          [src.getD (3 * i) 0, src.getD (3 * i + 1) 0, src.getD (3 * i + 2) 0, 1]) := by
      rcases htr with h | h | h | h <;> simp only [convertRGB_RGBA, h]
    have h2 : convertRGBA_RGB F img e src false =
        some ((List.range (img.width * img.height)).flatMap fun i =>
          [src.getD (4 * i) 0, src.getD (4 * i + 1) 0, src.getD (4 * i + 2) 0]) := by
      rcases htr with h | h | h | h <;> simp only [convertRGBA_RGB, h]
    constructor
    · refine ⟨_, h1, flatMap_fixed_length _ 4 _ (fun i => rfl), ?_⟩
      intro i hi
      exact flatMap4_getD _ _ _ _ _ i hi
    · refine ⟨_, h2, flatMap_fixed_length _ 3 _ (fun i => rfl), ?_⟩
      intro i hi
      exact flatMap3_getD _ _ _ _ i hi
  · intro htr
    have h1 : convertRGBA_RGBA F img e src true =
        some ((List.range (4 * (img.width * img.height))).map fun k =>
          src.getD k 0) := by
      rcases htr with h | h | h <;> simp only [convertRGBA_RGBA, h]
    have h2 : convertABGR_RGBA F img e src true =
        some ((List.range (img.width * img.height)).flatMap fun i =>
          [src.getD (4 * i + 4) 0, src.getD (4 * i + 3) 0,
           src.getD (4 * i + 2) 0, src.getD (4 * i + 1) 0]) := by
      rcases htr with h | h | h <;> simp only [convertABGR_RGBA, h]
    constructor
    · refine ⟨_, h1, ?_⟩
      intro k hk
      exact range_map_getD _ k _ hk
    · refine ⟨_, h2, ?_⟩
      intro i hi
      exact flatMap4_getD _ _ _ _ _ i hi
  · intro htr
    constructor <;> simp only [convertRGBA_RGBA, convertABGR_RGBA, htr]

/-- Witness for C6 (amended): a Linear-transfer RGBA pixel is copied
verbatim (component 2 of the output equals source component 2). -/
theorem reorder_transfer_dispatch_witness :
    (convertRGBA_RGBA constFn tinyImg linearRGBAElem [10, 20, 30, 40] true).map
      (fun l => l.getD 2 0) = some 30 := by
  obtain ⟨out, hout, hpt⟩ :=
    ((reorder_transfer_dispatch constFn tinyImg linearRGBAElem
      [10, 20, 30, 40]).2.1 (Or.inr (Or.inl rfl))).1
  rw [hout]
  have h := hpt 2 (by norm_num [tinyImg])
  show some (out.getD 2 0) = some 30
  rw [h]
  norm_num

/-- `logImageSetData8` (logImageCore.cc lines 293-324): the row buffer is
`memset` to zero once, each row writes `width * depth` bytes and the
zero tail pads the row to `rowLength`; the returned list is the byte
stream written to the file. -/
def logImageSetData8 (logImage : LogImageFile) (logElement : LogImageElement)
    (data : List Rat) : Option (List Nat) :=
  let rowLength := getRowLength logImage.width logElement
  some ((List.range logImage.height).flatMap fun y =>
    (List.range rowLength).map fun x =>
      if x < logImage.width * logImage.depth then
        float_uint (data.getD (y * (logImage.width * logImage.depth) + x) 0) 255
      else 0)

/-- One sample step of the 10-bit packer (the body of the inner loop of
`logImageSetData10`, logImageCore.cc lines 347-356): state is
(offset, index, pixel, row). -/
def setData10Step (isMSB : Bool) (st : Int × Nat × Nat × List Nat) (v : Rat) :
    Int × Nat × Nat × List Nat :=
  let offset := st.1
  let index := st.2.1
  let pixel := st.2.2.1
  let row := st.2.2.2
  let pixel2 := pixel ||| (float_uint v 1023 <<< offset.toNat)
  let offset2 := offset - 10
  if offset2 < 0 then
    (22, index + 1, 0, row.set index (swap_uint pixel2 isMSB))
  else
    (offset2, index, pixel2, row)

/-- One row of the 10-bit packer (logImageCore.cc lines 342-360): fold the
row's samples, then flush the partial final word ONLY when its accumulated
value is non-zero (`if (pixel != 0)` at line 357); the row buffer is not
reinitialised between rows. -/
def setData10Row (isMSB : Bool) (samples : List Rat) (row : List Nat) :
    List Nat :=
  let st := samples.foldl (setData10Step isMSB) (22, 0, 0, row)
  if st.2.2.1 ≠ 0 then st.2.2.2.set st.2.1 (swap_uint st.2.2.1 isMSB)
  else st.2.2.2

/-- The per-row loop of `logImageSetData10`: the same `MEM_mallocN`ed row
buffer (never `memset`) is reused for every row and appended to the
output stream after each row. -/
def setData10Go (isMSB : Bool) : List (List Rat) → List Nat → List Nat
  | [], _ => []
  | r :: rest, row =>
    let row2 := setData10Row isMSB r row
    row2 ++ setData10Go isMSB rest row2

/-- `logImageSetData10` (logImageCore.cc lines 326-371). `initRow` is the
content the allocator left in the row buffer (`MEM_mallocN` does not
zero it); the result is the stream of 32-bit words written to the file. -/
def logImageSetData10 (logImage : LogImageFile) (logElement : LogImageElement)
    (data : List Rat) (initRow : List Nat) : Option (List Nat) :=
  some (setData10Go logImage.isMSB
    ((List.range logImage.height).map fun y =>
      (List.range (logImage.width * logImage.depth)).map fun x =>
        data.getD (y * (logImage.width * logImage.depth) + x) 0)
    initRow)

/-- `logImageSetData12` (logImageCore.cc lines 373-405): one 16-bit word
per sample, value `code << 4`, endian-swapped; entries of the malloc'd row
beyond `width * depth` are modelled as 0. -/
def logImageSetData12 (logImage : LogImageFile) (logElement : LogImageElement)
    (data : List Rat) : Option (List Nat) :=
  let rowLength := getRowLength logImage.width logElement
  some ((List.range logImage.height).flatMap fun y =>
    (List.range (rowLength / 2)).map fun x =>
      if x < logImage.width * logImage.depth then
        swap_ushort (float_uint (data.getD (y * (logImage.width * logImage.depth) + x) 0) 4095 <<< 4)
          logImage.isMSB
      else 0)

/-- `logImageSetData16` (logImageCore.cc lines 407-439). -/
def logImageSetData16 (logImage : LogImageFile) (logElement : LogImageElement)
    (data : List Rat) : Option (List Nat) :=
  let rowLength := getRowLength logImage.width logElement
  some ((List.range logImage.height).flatMap fun y =>
    (List.range (rowLength / 2)).map fun x =>
      if x < logImage.width * logImage.depth then
        swap_ushort (float_uint (data.getD (y * (logImage.width * logImage.depth) + x) 0) 65535)
          logImage.isMSB
      else 0)

/-- `convertRGBAToLogElement` (logImageCore.cc lines 1733-1804): optional
linear-to-sRGB pass through the LUT, then dispatch on the descriptor —
only RGB and RGBA are supported, everything else returns failure. -/
def convertRGBAToLogElement (F : FloatFn) (logImage : LogImageFile)
    (logElement : LogImageElement) (src : List Rat)
    (srcIsLinearRGB : Bool) : Option (List Rat) :=
  let srgbSrc :=
    if srcIsLinearRGB then
      (List.range (logImage.width * logImage.height)).flatMap fun i =>
        [getLinToSrgbLut F logElement (float_uint (src.getD (4 * i) 0) logElement.maxValue),
         getLinToSrgbLut F logElement (float_uint (src.getD (4 * i + 1) 0) logElement.maxValue),
         getLinToSrgbLut F logElement (float_uint (src.getD (4 * i + 2) 0) logElement.maxValue),
         src.getD (4 * i + 3) 0]
    else src
  match logElement.descriptor with
  | .RGB => convertRGBA_RGB F logImage logElement srgbSrc false
  | .RGBA => convertRGBA_RGBA F logImage logElement srgbSrc false
  | _ => none

/-- `logImageSetDataRGBA` (logImageCore.cc lines 249-291): convert the
RGBA input to the first element's layout, then dispatch on
`bitsPerSample` ∈ {8, 10, 12, 16}; anything else returns failure. -/
def logImageSetDataRGBA (F : FloatFn) (logImage : LogImageFile)
    (data : List Rat) (dataIsLinearRGB : Bool) : Option (List Nat) :=
  let e := logImage.elements.getD 0 default
  match convertRGBAToLogElement F logImage e data dataIsLinearRGB with
  | none => none
  | some elementData =>
    if e.bitsPerSample = 8 then logImageSetData8 logImage e elementData
    else if e.bitsPerSample = 10 then
      logImageSetData10 logImage e elementData
        (List.replicate (getRowLength logImage.width e / 4) 0)
    else if e.bitsPerSample = 12 then logImageSetData12 logImage e elementData
    else if e.bitsPerSample = 16 then logImageSetData16 logImage e elementData
    else none

/-- 1×2 file (one 10-bit sample per row) for the 10-bit writer scenario. -/
def writeImg : LogImageFile :=
  { width := 1, height := 2, depth := 1, numElements := 1, elements := [],
    isMSB := false, srcFormat := .DPX, referenceBlack := 95,
    referenceWhite := 685, gamma := 1 }

/-- 10-bit packing-1 element for the writer scenario. -/
def write10Elem : LogImageElement :=
  { descriptor := .Luminance, depth := 1, bitsPerSample := 10, packing := 1,
    transfer := .Linear, dataOffset := 0, refLowData := 0,
    refHighData := 1023, refLowQuantity := 0, refHighQuantity := 0,
    maxValue := 1023 }

lemma setData10Row_single (v : Rat) (r : List Nat) :
    setData10Row false [v] r =
      if float_uint v 1023 <<< 22 ≠ 0
        then r.set 0 (swap_uint (float_uint v 1023 <<< 22) false) else r := by
  simp [setData10Row, setData10Step]

/-- Counterexample to C8: on a 1×2 image with samples 1.0 then 0.0, each
row ends in a partially filled word (1 sample, shift stops at 12), but the
second row's word accumulates to 0, the `if (pixel != 0)` guard skips the
store, and the stale first-row word 0xFFC00000 = 4290772992 is written
again instead of the zero word the claim requires. -/
theorem setData10_zero_partial_word_not_flushed :
    logImageSetData10 writeImg write10Elem [1, 0] [0] =
      some [4290772992, 4290772992] ∧ (4290772992 : Nat) ≠ 0 := by
  constructor
  · have h1 : float_uint 1 1023 = 1023 := by norm_num [float_uint]
    have h0 : float_uint 0 1023 = 0 := by norm_num [float_uint]
    have hrows : ((List.range writeImg.height).map fun y =>
        (List.range (writeImg.width * writeImg.depth)).map fun x =>
          (([1, 0] : List Rat).getD (y * (writeImg.width * writeImg.depth) + x) 0)) =
        [[1], [0]] := by
      simp [writeImg, List.range_succ]
    simp only [logImageSetData10]
    rw [show writeImg.isMSB = false from rfl, hrows]
    simp only [setData10Go, setData10Row_single, h1, h0]
    norm_num [swap_uint, Nat.shiftLeft_eq]
  · norm_num

/-- C8 (amended): in the 10-bit writer a row's final partially-filled word
is stored into the row buffer only when its accumulated value is non-zero;
when every trailing sample quantizes to code 0 the store is skipped and
the word position keeps the row buffer's previous content (the previous
row's word, or the allocator's initial content `g` for the first row), so
the trailing padding is not guaranteed to be written as zero. Shown for
every pair of sample values `a`, `b` and every initial buffer content on
a 1×2 one-sample-per-row image. -/
theorem setData10_partial_word_flush_iff_nonzero (a b : Rat) (g : Nat) :
    logImageSetData10 writeImg write10Elem [a, b] [g] =
      some ((if float_uint a 1023 <<< 22 ≠ 0
              then [swap_uint (float_uint a 1023 <<< 22) false] else [g]) ++
            (if float_uint b 1023 <<< 22 ≠ 0
              then [swap_uint (float_uint b 1023 <<< 22) false]
              else if float_uint a 1023 <<< 22 ≠ 0
                then [swap_uint (float_uint a 1023 <<< 22) false] else [g])) := by
  have hrows : ((List.range writeImg.height).map fun y =>
      (List.range (writeImg.width * writeImg.depth)).map fun x =>
        (([a, b] : List Rat).getD (y * (writeImg.width * writeImg.depth) + x) 0)) =
      [[a], [b]] := by
    simp [writeImg, List.range_succ]
  simp only [logImageSetData10]
  rw [show writeImg.isMSB = false from rfl, hrows]
  simp only [setData10Go, setData10Row_single]
  by_cases ha : float_uint a 1023 <<< 22 = 0 <;>
    by_cases hb : float_uint b 1023 <<< 22 = 0 <;>
      simp [ha, hb]

/-- Element whose descriptor ABGR is unsupported by the writer. -/
def abgrWriteElem : LogImageElement :=
  { descriptor := .ABGR, depth := 4, bitsPerSample := 10, packing := 1,
    transfer := .Linear, dataOffset := 0, refLowData := 0,
    refHighData := 1023, refLowQuantity := 0, refHighQuantity := 0,
    maxValue := 1023 }

/-- Element with RGB descriptor but unsupported 9 bits per sample. -/
def badBitsElem : LogImageElement :=
  { descriptor := .RGB, depth := 3, bitsPerSample := 9, packing := 1,
    transfer := .Linear, dataOffset := 0, refLowData := 0,
    refHighData := 511, refLowQuantity := 0, refHighQuantity := 0,
    maxValue := 511 }

/-- C9: `logImageSetDataRGBA` fails (non-zero, modelled `none`) whenever
element 0's descriptor is neither RGB nor RGBA — the conversion itself
refuses every other descriptor — and also whenever element 0's
`bitsPerSample` is not one of {8, 10, 12, 16}; the bit-pack write is
reached only with an RGB or RGBA descriptor. -/
theorem setDataRGBA_unsupported_fails (F : FloatFn) (img : LogImageFile)
    (data : List Rat) (lin : Bool) :
    ((img.elements.getD 0 default).descriptor ≠ .RGB ∧
        (img.elements.getD 0 default).descriptor ≠ .RGBA →
      logImageSetDataRGBA F img data lin = none) ∧
    ((img.elements.getD 0 default).bitsPerSample ∉ ([8, 10, 12, 16] : List Nat) →
      logImageSetDataRGBA F img data lin = none) := by
  constructor
  · intro hdesc
    have hconv : convertRGBAToLogElement F img (img.elements.getD 0 default)
        data lin = none := by
      simp only [convertRGBAToLogElement]
      cases h : (img.elements.getD 0 default).descriptor <;>
        first
          | rfl
          | (exfalso; rw [h] at hdesc; simp at hdesc)
    simp only [logImageSetDataRGBA, hconv]
  · intro hbits
    simp only [List.mem_cons, List.mem_singleton, not_or] at hbits
    obtain ⟨h8, h10, h12, h16⟩ := hbits
    simp only [logImageSetDataRGBA]
    cases hconv : convertRGBAToLogElement F img (img.elements.getD 0 default)
        data lin with
    | none => rfl
    | some ed =>
      simp only [h8, if_false, h10, h12, h16]

/-- Witness for C9: an ABGR first element and a 9-bit RGB first element
both make `logImageSetDataRGBA` fail. -/
theorem setDataRGBA_unsupported_fails_witness :
    logImageSetDataRGBA constFn
      { tinyImg with elements := [abgrWriteElem] } [0, 0, 0, 1] false = none ∧
    logImageSetDataRGBA constFn
      { tinyImg with elements := [badBitsElem] } [0, 0, 0, 1] false = none := by
  constructor
  · exact (setDataRGBA_unsupported_fails constFn
      { tinyImg with elements := [abgrWriteElem] } [0, 0, 0, 1] false).1
      (by constructor <;> simp [abgrWriteElem])
  · exact (setDataRGBA_unsupported_fails constFn
      { tinyImg with elements := [badBitsElem] } [0, 0, 0, 1] false).2
      (by simp [badBitsElem])

/-- The word loop of `logImageElementGetData1` for one row
(logImageCore.cc lines 742-754): each 32-bit word covers the row
positions `x .. x+31`, but a bit is emitted only while
`x + offset < width` — the guard compares against `width`, not
`width * depth` — and the remaining positions keep the zero that
`imb_alloc_pixels` put in the buffer. -/
def data1Chunks (width depth : Nat) (isMSB : Bool) : Nat → List Nat → List Rat
  | _, [] => []
  | x, word :: ws =>
    let pixel := swap_uint word isMSB
    ((List.range (min 32 (width * depth - x))).map fun offset =>
      if x + offset < width then (((pixel >>> offset) % 2 : Nat) : Rat) else 0) ++
    data1Chunks width depth isMSB (x + 32) ws

/-- `logImageElementGetData1` (logImageCore.cc lines 726-757): reads
`ceil(width*depth/32)` 32-bit words per row; `none` models the EOF error
return. -/
def logImageElementGetData1 (logImage : LogImageFile)
    (logElement : LogImageElement) (words : List Nat) : Option (List Rat) :=
  let wordsPerRow := (logImage.width * logElement.depth + 31) / 32
  if logImage.height * wordsPerRow ≤ words.length then
    some ((List.range logImage.height).flatMap fun y =>
      data1Chunks logImage.width logElement.depth logImage.isMSB 0
        ((words.drop (y * wordsPerRow)).take wordsPerRow))
  else none

/-- 1-bit element of depth 2. -/
def oneBit2Elem : LogImageElement :=
  { descriptor := .YA, depth := 2, bitsPerSample := 1, packing := 0,
    transfer := .Linear, dataOffset := 0, refLowData := 0,
    refHighData := 1, refLowQuantity := 0, refHighQuantity := 0,
    maxValue := 1 }

/-- 1-bit element of depth 1. -/
def oneBit1Elem : LogImageElement :=
  { descriptor := .Luminance, depth := 1, bitsPerSample := 1, packing := 0,
    transfer := .Linear, dataOffset := 0, refLowData := 0,
    refHighData := 1, refLowQuantity := 0, refHighQuantity := 0,
    maxValue := 1 }

/-- 2×1 little-endian file for the 1-bit witness. -/
def bitImg : LogImageFile :=
  { width := 2, height := 1, depth := 1, numElements := 1, elements := [],
    isMSB := false, srcFormat := .Cineon, referenceBlack := 95,
    referenceWhite := 685, gamma := 1 }

/-- Counterexample to C7: width 1, depth 2, word 3 (both bits set). The
claim says both samples of the row get their bits (giving [1, 1]), but
the guard `x + offset < width` stops after position 0, so sample 1 is
never written and stays 0: the unpacker returns [1, 0]. -/
theorem getData1_depth2_drops_samples :
    logImageElementGetData1 tinyImg oneBit2Elem [3] = some [1, 0] ∧
    ((3 >>> 1) % 2 : Nat) = 1 := by
  constructor
  · norm_num [logImageElementGetData1, data1Chunks, tinyImg, oneBit2Elem,
      swap_uint, List.range_succ]
  · decide

lemma take_drop_getD (l : List Nat) (a b i : Nat) (hi : i < b) :
    ((l.drop a).take b).getD i 0 = l.getD (a + i) 0 := by
  rw [List.getD_eq_getElem?_getD, List.getElem?_take, if_pos hi,
    List.getElem?_drop, ← List.getD_eq_getElem?_getD]

lemma flatMap_congr_mem (l : List Nat) (f g : Nat → List Rat)
    (h : ∀ a ∈ l, f a = g a) : l.flatMap f = l.flatMap g := by
  induction l with
  | nil => rfl
  | cons a t ih =>
    rw [List.flatMap_cons, List.flatMap_cons, h a (List.mem_cons_self a t),
      ih fun b hb => h b (List.mem_cons_of_mem a hb)]

lemma data1Chunks_depth1 (width : Nat) (msb : Bool) :
    ∀ (ws : List Nat) (x : Nat),
      data1Chunks width 1 msb x ws =
        (List.range (min (width - x) (32 * ws.length))).map fun o =>
          (((swap_uint (ws.getD (o / 32) 0) msb >>> (o % 32)) % 2 : Nat) : Rat) := by
  intro ws
  induction ws with
  | nil => intro x; simp [data1Chunks]
  | cons w rest ih =>
    intro x
    rw [data1Chunks]
    have hsplit : min (width - x) (32 * (w :: rest).length) =
        min 32 (width * 1 - x) + min (width - x - 32) (32 * rest.length) := by
      simp only [List.length_cons, Nat.mul_one]
      omega
    rw [hsplit, List.range_add, List.map_append]
    congr 1
    · apply List.map_congr_left
      intro o ho
      rw [List.mem_range] at ho
      have ho32 : o < 32 := lt_of_lt_of_le ho (Nat.min_le_left _ _)
      have hoW : o < width - x := by
        have := Nat.min_le_right 32 (width * 1 - x)
        omega
      rw [if_pos (by omega), Nat.div_eq_of_lt ho32, Nat.mod_eq_of_lt ho32]
      rfl
    · rw [List.map_map, ih (x + 32)]
      have hsub : width - (x + 32) = width - x - 32 := by omega
      rw [hsub]
      rcases Nat.lt_or_ge (width - x) 32 with hlt | hge
      · have h0 : min (width - x - 32) (32 * rest.length) = 0 := by omega
        rw [h0]
        simp
      · have h32 : min 32 (width * 1 - x) = 32 := by
          simp only [Nat.mul_one]
          omega
        rw [h32]
        apply List.map_congr_left
        intro o ho
        simp only [Function.comp]
        have hdiv : (32 + o) / 32 = o / 32 + 1 := by
          omega
        have hmod : (32 + o) % 32 = o % 32 := by
          omega
        rw [hdiv, hmod, List.getD_cons_succ]

/-- C7 (amended): for depth 1 every one of the `width * height` samples is
written: sample `p` of row `y` is bit `p mod 32` of word
`y * ceil(width/32) + p / 32`. (For depth > 1 the guard
`x + offset < width` leaves the row positions at `width` and beyond at
their zero initialization, as the counterexample shows.) -/
theorem getData1_depth1_complete (img : LogImageFile) (e : LogImageElement)
    (words : List Nat) (hd : e.depth = 1)
    (hlen : img.height * ((img.width + 31) / 32) ≤ words.length) :
    logImageElementGetData1 img e words =
      some ((List.range img.height).flatMap fun y =>
        (List.range img.width).map fun p =>
          (((swap_uint (words.getD (y * ((img.width + 31) / 32) + p / 32) 0)
              img.isMSB >>> (p % 32)) % 2 : Nat) : Rat)) := by
  have hW32 : img.width ≤ 32 * ((img.width + 31) / 32) := by
    have h1 := Nat.div_add_mod (img.width + 31) 32
    have h2 := Nat.mod_lt (img.width + 31) (show 0 < 32 by norm_num)
    omega
  simp only [logImageElementGetData1, hd, Nat.mul_one]
  rw [if_pos hlen]
  congr 1
  apply flatMap_congr_mem
  intro y hy
  rw [List.mem_range] at hy
  have hslice : ((words.drop (y * ((img.width + 31) / 32))).take
      ((img.width + 31) / 32)).length = (img.width + 31) / 32 := by
    rw [List.length_take, List.length_drop]
    have : (y + 1) * ((img.width + 31) / 32) ≤
        img.height * ((img.width + 31) / 32) :=
      Nat.mul_le_mul_right _ hy
    have h2 : (y + 1) * ((img.width + 31) / 32) =
        y * ((img.width + 31) / 32) + ((img.width + 31) / 32) :=
      Nat.succ_mul _ _
    omega
  rw [data1Chunks_depth1, hslice]
  have hmin : min (img.width - 0) (32 * ((img.width + 31) / 32)) = img.width := by
    omega
  rw [hmin]
  apply List.map_congr_left
  intro p hp
  rw [List.mem_range] at hp
  have hdivlt : p / 32 < (img.width + 31) / 32 := by
    rw [Nat.div_lt_iff_lt_mul (show 0 < 32 by norm_num)]
    have := hW32
    omega
  rw [take_drop_getD _ _ _ _ hdivlt]

/-- Witness for C7 (amended): depth-1 width-2 row with word 2 decodes to
[bit0, bit1] = [0, 1]. -/
theorem getData1_depth1_complete_witness :
    logImageElementGetData1 bitImg oneBit1Elem [2] = some [0, 1] := by
  have h := getData1_depth1_complete bitImg oneBit1Elem [2] rfl
    (by norm_num [bitImg])
  rw [h]
  norm_num [bitImg, swap_uint, List.range_succ]
  decide

/-- One iteration of the descriptor-synthesis switch of
`logImageGetDataRGBA` (logImageCore.cc lines 519-651): `st` is the pair
(mergedElement.descriptor as an `Option` — `none` models the -1
sentinel — and the `sortedElementData` slot table), `i` the element index
and `d` its descriptor. -/
def synthStep (hasAlpha : Bool) (mergedDepth : Nat)
    (st : Option Descriptor × List (Option Nat)) (i : Nat) (d : Descriptor) :
    Option Descriptor × List (Option Nat) :=
  match d with
  | .Red | .RGB =>
    (some (if hasAlpha then Descriptor.RGBA else .RGB), st.2.set 0 (some i))
  | .Green =>
    (some (if hasAlpha then Descriptor.RGBA else .RGB), st.2.set 1 (some i))
  | .Blue =>
    (some (if hasAlpha then Descriptor.RGBA else .RGB), st.2.set 2 (some i))
  | .Alpha => (st.1, st.2.set (mergedDepth - 1) (some i))
  | .Luminance =>
    let newDesc :=
      match st.1 with
      | none => some (if hasAlpha then Descriptor.YA else .Luminance)
      | some .Chrominance =>
        if mergedDepth = 2 then some Descriptor.CbYCrY
        else if mergedDepth = 3 then
          some (if hasAlpha then Descriptor.CbYACrYA else .CbYCr)
        else if mergedDepth = 4 then some Descriptor.CbYCrA
        else some Descriptor.Chrominance
      | some d0 => some d0
    let slot := if mergedDepth = 1 ∨ (mergedDepth = 2 ∧ hasAlpha) then 0 else 1
    (newDesc, st.2.set slot (some i))
  | .Chrominance =>
    let newDesc :=
      match st.1 with
      | none => some Descriptor.Chrominance
      | some .Luminance =>
        if mergedDepth = 2 then some Descriptor.CbYCrY
        else if mergedDepth = 3 then
          some (if hasAlpha then Descriptor.CbYACrYA else .CbYCr)
        else if mergedDepth = 4 then some Descriptor.CbYCrA
        else some Descriptor.Luminance
      | some d0 => some d0
    let slot := if st.2.getD 0 none = none then 0 else 2
    (newDesc, st.2.set slot (some i))
  | .CbYCr =>
    (some (if hasAlpha then Descriptor.CbYCrA else .CbYCr), st.2.set 0 (some i))
  | .RGBA | .ABGR | .CbYACrYA | .CbYCrY | .CbYCrA => (some d, st.2.set 0 (some i))
  | .YA | .Depth | .Composite => st

/-- The descriptor-synthesis loop over the element descriptors; the slot
table starts as eight `-1` entries (`memset(&sortedElementData, -1, ...)`,
modelled `none`). -/
def synthDescriptor (descs : List Descriptor) (hasAlpha : Bool)
    (mergedDepth : Nat) : Option Descriptor × List (Option Nat) :=
  descs.enum.foldl (fun st p => synthStep hasAlpha mergedDepth st p.1 p.2)
    (none, List.replicate 8 none)

/-- Take `d` samples from plane `o` and advance that plane's cursor
(`*(elementData_ptr[...]++)` repeated `depth` times). -/
def takeFrom (st : List (List Rat)) (o d : Nat) : List Rat × List (List Rat) :=
  ((st.getD o []).take d, st.set o ((st.getD o []).drop d))

/-- One pass of the interleave loop's inner `for` (logImageCore.cc lines
669-673): for each `i`, copy `element[sortedElementData[i]].depth` samples
from plane `sortedElementData[i]`. -/
def passOnce (dep : Nat → Nat) :
    List (List Rat) → List Nat → List Rat × List (List Rat)
  | st, [] => ([], st)
  | st, o :: rest =>
    let t := takeFrom st o (dep o)
    let r := passOnce dep t.2 rest
    (t.1 ++ r.1, r.2)

/-- The `while (sampleIndex < total)` interleave loop (logImageCore.cc
lines 667-674), fuelled: each recursive step models one full pass of the
inner loops. The fuel is chosen at the call site to dominate the number
of passes the C loop performs when it terminates. -/
def mergeRounds (dep : Nat → Nat) (order : List Nat) (total : Nat) :
    Nat → List (List Rat) → Nat → List Rat
  | 0, _, _ => []
  | fuel + 1, st, produced =>
    if produced < total then
      let pr := passOnce dep st order
      pr.1 ++ mergeRounds dep order total fuel pr.2 (produced + pr.1.length)
    else []

/-- The multi-element branch of `logImageGetDataRGBA` (logImageCore.cc
lines 508-686) up to `mergedData`, before the color conversion: computes
`hasAlpha`, runs the descriptor synthesis, and interleaves the planes in
`sortedElementData` slot order (the loop indexes every plane through
`sortedElementData[i]`). A `-1` slot inside the consulted range is
undefined behaviour in C (indexing `element[-1]`); it is mapped to plane 0
here and no theorem relies on that case. -/
def mergeElements (logImage : LogImageFile) (planes : List (List Rat)) :
    Option Descriptor × List Rat :=
  let hasAlpha := logImage.elements.any fun e => e.descriptor = .Alpha
  let synth := synthDescriptor (logImage.elements.map fun e => e.descriptor)
    hasAlpha logImage.depth
  let order := (List.range logImage.numElements).map fun i =>
    (synth.2.getD i none).getD 0
  let dep := fun o => (logImage.elements.getD o default).depth
  let total := logImage.width * logImage.height * logImage.depth
  (synth.1, mergeRounds dep order total total planes 0)

/-- Reference interleaving of three equal-length planes: sample `3k` from
the first, `3k+1` from the second, `3k+2` from the third. -/
def interleave3 : List Rat → List Rat → List Rat → List Rat
  | a :: as, b :: bs, c :: cs => a :: b :: c :: interleave3 as bs cs
  | _, _, _ => []

lemma getD3_zero (A B C : List Rat) : [A, B, C].getD 0 [] = A := rfl

lemma getD3_one (A B C : List Rat) : [A, B, C].getD 1 [] = B := rfl

lemma getD3_two (A B C : List Rat) : [A, B, C].getD 2 [] = C := rfl

lemma set3_zero (A B C X : List Rat) : [A, B, C].set 0 X = [X, B, C] := rfl

lemma set3_one (A B C X : List Rat) : [A, B, C].set 1 X = [A, X, C] := rfl

lemma set3_two (A B C X : List Rat) : [A, B, C].set 2 X = [A, B, X] := rfl

lemma interleave3_length (n : Nat) :
    ∀ (a b c : List Rat), a.length = n → b.length = n → c.length = n →
      (interleave3 a b c).length = 3 * n := by
  induction n with
  | zero =>
    intro a b c ha hb hc
    rw [List.length_eq_zero.mp ha, List.length_eq_zero.mp hb,
      List.length_eq_zero.mp hc]
    rfl
  | succ m ih =>
    intro a b c ha hb hc
    cases a with
    | nil => simp at ha
    | cons x ta =>
      cases b with
      | nil => simp at hb
      | cons y tb =>
        cases c with
        | nil => simp at hc
        | cons z tc =>
          simp only [interleave3, List.length_cons]
          rw [ih ta tb tc (by simpa using ha) (by simpa using hb)
            (by simpa using hc)]
          ring

lemma interleave3_getD (n : Nat) :
    ∀ (a b c : List Rat) (k : Nat), a.length = n → b.length = n →
      c.length = n → k < n →
      (interleave3 a b c).getD (3 * k) 0 = a.getD k 0 ∧
      (interleave3 a b c).getD (3 * k + 1) 0 = b.getD k 0 ∧
      (interleave3 a b c).getD (3 * k + 2) 0 = c.getD k 0 := by
  induction n with
  | zero => intro a b c k ha hb hc hk; omega
  | succ m ih =>
    intro a b c k ha hb hc hk
    cases a with
    | nil => simp at ha
    | cons x ta =>
      cases b with
      | nil => simp at hb
      | cons y tb =>
        cases c with
        | nil => simp at hc
        | cons z tc =>
          cases k with
          | zero => simp [interleave3]
          | succ j =>
            have h3 : 3 * (j + 1) = 3 * j + 1 + 1 + 1 := by ring
            have h4 : 3 * (j + 1) + 1 = 3 * j + 1 + 1 + 1 + 1 := by ring
            have h5 : 3 * (j + 1) + 2 = 3 * j + 2 + 1 + 1 + 1 := by ring
            simp only [interleave3, h3, h4, h5, List.getD_cons_succ]
            have h6 : 3 * j + 1 + 1 = 3 * j + 2 := by ring
            rw [h6]
            exact ih ta tb tc j (by simpa using ha) (by simpa using hb)
              (by simpa using hc) (by omega)

/-- The six possible layouts of three indices forming a permutation of
(0, 1, 2). -/
def perm012 (i0 i1 i2 : Nat) : Prop :=
  (i0 = 0 ∧ i1 = 1 ∧ i2 = 2) ∨ (i0 = 0 ∧ i1 = 2 ∧ i2 = 1) ∨
  (i0 = 1 ∧ i1 = 0 ∧ i2 = 2) ∨ (i0 = 1 ∧ i1 = 2 ∧ i2 = 0) ∨
  (i0 = 2 ∧ i1 = 0 ∧ i2 = 1) ∨ (i0 = 2 ∧ i1 = 1 ∧ i2 = 0)

lemma mergeRounds_three (i0 i1 i2 : Nat) (hperm : perm012 i0 i1 i2)
    (dep : Nat → Nat) (hdep0 : dep 0 = 1) (hdep1 : dep 1 = 1)
    (hdep2 : dep 2 = 1) (n : Nat) :
    ∀ (fuel produced : Nat) (a b c : List Rat), n ≤ fuel →
      a.length = n → b.length = n → c.length = n →
      mergeRounds dep [i0, i1, i2] (produced + 3 * n) fuel [a, b, c] produced =
        interleave3 ([a, b, c].getD i0 []) ([a, b, c].getD i1 [])
          ([a, b, c].getD i2 []) := by
  induction n with
  | zero =>
    intro fuel produced a b c hf ha hb hc
    rw [List.length_eq_zero.mp ha, List.length_eq_zero.mp hb,
      List.length_eq_zero.mp hc]
    have hrhs : interleave3 (([[], [], []] : List (List Rat)).getD i0 [])
        (([[], [], []] : List (List Rat)).getD i1 [])
        (([[], [], []] : List (List Rat)).getD i2 []) = [] := by
      rcases hperm with ⟨h0, h1, h2⟩ | ⟨h0, h1, h2⟩ | ⟨h0, h1, h2⟩ |
          ⟨h0, h1, h2⟩ | ⟨h0, h1, h2⟩ | ⟨h0, h1, h2⟩ <;>
        (subst h0; subst h1; subst h2) <;> rfl
    rw [hrhs]
    cases fuel with
    | zero => simp [mergeRounds]
    | succ f =>
      simp only [mergeRounds]
      rw [if_neg (by omega)]
  | succ k ih =>
    intro fuel produced a b c hf ha hb hc
    cases fuel with
    | zero => omega
    | succ f =>
      cases a with
      | nil => simp at ha
      | cons x ta =>
        cases b with
        | nil => simp at hb
        | cons y tb =>
          cases c with
          | nil => simp at hc
          | cons z tc =>
            have hta : ta.length = k := by simpa using ha
            have htb : tb.length = k := by simpa using hb
            have htc : tc.length = k := by simpa using hc
            simp only [mergeRounds]
            rw [if_pos (by omega)]
            rcases hperm with ⟨h0, h1, h2⟩ | ⟨h0, h1, h2⟩ | ⟨h0, h1, h2⟩ |
                ⟨h0, h1, h2⟩ | ⟨h0, h1, h2⟩ | ⟨h0, h1, h2⟩ <;>
              (subst h0; subst h1; subst h2) <;>
              simp only [passOnce, takeFrom, hdep0, hdep1, hdep2, getD3_zero,
                getD3_one, getD3_two, set3_zero, set3_one, set3_two,
                List.take_succ_cons, List.take_zero, List.drop_succ_cons,
                List.drop_zero, List.cons_append, List.nil_append,
                List.length_cons, List.length_nil, interleave3] <;>
              norm_num <;>
              (rw [show produced + 3 * (k + 1) = produced + 3 + 3 * k from by
                  ring]
               exact ih f (produced + 3) ta tb tc (by omega) hta htb htc)


lemma perm3_rgb_cases (d0 d1 d2 : Descriptor)
    (h : [d0, d1, d2].Perm [Descriptor.Red, .Green, .Blue]) :
    (d0 = .Red ∧ d1 = .Green ∧ d2 = .Blue) ∨
    (d0 = .Red ∧ d1 = .Blue ∧ d2 = .Green) ∨
    (d0 = .Green ∧ d1 = .Red ∧ d2 = .Blue) ∨
    (d0 = .Green ∧ d1 = .Blue ∧ d2 = .Red) ∨
    (d0 = .Blue ∧ d1 = .Red ∧ d2 = .Green) ∨
    (d0 = .Blue ∧ d1 = .Green ∧ d2 = .Red) := by
  have h0 : d0 ∈ [Descriptor.Red, .Green, .Blue] := h.subset (by simp)
  have h1 : d1 ∈ [Descriptor.Red, .Green, .Blue] := h.subset (by simp)
  have h2 : d2 ∈ [Descriptor.Red, .Green, .Blue] := h.subset (by simp)
  fin_cases h0 <;> fin_cases h1 <;> fin_cases h2 <;>
    first
      | decide
      | exact absurd h (by decide)

lemma merge_three_aux (img : LogImageFile) (p0 p1 p2 : List Rat)
    (iR iG iB : Nat) (hperm : perm012 iR iG iB)
    (hsynth : synthDescriptor (img.elements.map fun e => e.descriptor)
        (img.elements.any fun e => e.descriptor = .Alpha) img.depth =
      (some .RGB, [some iR, some iG, some iB, none, none, none, none, none]))
    (hnum : img.numElements = 3) (hdepth : img.depth = 3)
    (hdep0 : (img.elements.getD 0 default).depth = 1)
    (hdep1 : (img.elements.getD 1 default).depth = 1)
    (hdep2 : (img.elements.getD 2 default).depth = 1)
    (hp0 : p0.length = img.width * img.height)
    (hp1 : p1.length = img.width * img.height)
    (hp2 : p2.length = img.width * img.height) :
    mergeElements img [p0, p1, p2] =
      (some .RGB, interleave3 ([p0, p1, p2].getD iR [])
        ([p0, p1, p2].getD iG []) ([p0, p1, p2].getD iB [])) := by
  simp only [mergeElements, hnum]
  rw [hsynth]
  have horder : (List.range 3).map (fun i =>
      (([some iR, some iG, some iB, none, none, none, none, none] :
        List (Option Nat)).getD i none).getD 0) = [iR, iG, iB] := by
    simp [List.range_succ]
  rw [horder, hdepth]
  simp only [Prod.mk.injEq]
  refine ⟨trivial, ?_⟩
  rw [show img.width * img.height * 3 = 0 + 3 * (img.width * img.height)
    from by ring]
  exact mergeRounds_three iR iG iB hperm _ hdep0 hdep1 hdep2
    (img.width * img.height) (0 + 3 * (img.width * img.height)) 0 p0 p1 p2
    (by omega) hp0 hp1 hp2

lemma merge_conclusion_of (M : Option Descriptor × List Rat)
    (rP gP bP : List Rat) (n : Nat)
    (hM : M = (some .RGB, interleave3 rP gP bP))
    (hr : rP.length = n) (hg : gP.length = n) (hb : bP.length = n) :
    M.1 = some .RGB ∧ M.2.length = 3 * n ∧
    ∀ k < n, M.2.getD (3 * k) 0 = rP.getD k 0 ∧
      M.2.getD (3 * k + 1) 0 = gP.getD k 0 ∧
      M.2.getD (3 * k + 2) 0 = bP.getD k 0 := by
  subst hM
  exact ⟨rfl, interleave3_length n _ _ _ hr hg hb,
    fun k hk => interleave3_getD n _ _ _ k hr hg hb hk⟩

/-- C1: three planar elements whose descriptors are Red, Green and Blue in
any file order merge to descriptor RGB and a depth-3 interleaved buffer in
which sample `3k` comes from the Red element's plane, `3k+1` from the
Green plane and `3k+2` from the Blue plane — the interleave loop reads the
planes through `sortedElementData`, so the file order of the elements does
not matter. -/
theorem merge_three_planar_rgb (img : LogImageFile)
    (e0 e1 e2 : LogImageElement) (p0 p1 p2 : List Rat)
    (helems : img.elements = [e0, e1, e2])
    (hnum : img.numElements = 3) (hdepth : img.depth = 3)
    (hd0 : e0.depth = 1) (hd1 : e1.depth = 1) (hd2 : e2.depth = 1)
    (hperm : [e0.descriptor, e1.descriptor, e2.descriptor].Perm
      [Descriptor.Red, .Green, .Blue])
    (hp0 : p0.length = img.width * img.height)
    (hp1 : p1.length = img.width * img.height)
    (hp2 : p2.length = img.width * img.height) :
    (mergeElements img [p0, p1, p2]).1 = some .RGB ∧
    (mergeElements img [p0, p1, p2]).2.length = 3 * (img.width * img.height) ∧
    ∀ k < img.width * img.height,
      (mergeElements img [p0, p1, p2]).2.getD (3 * k) 0 =
        ([p0, p1, p2].getD (List.indexOf Descriptor.Red
          [e0.descriptor, e1.descriptor, e2.descriptor]) []).getD k 0 ∧
      (mergeElements img [p0, p1, p2]).2.getD (3 * k + 1) 0 =
        ([p0, p1, p2].getD (List.indexOf Descriptor.Green
          [e0.descriptor, e1.descriptor, e2.descriptor]) []).getD k 0 ∧
      (mergeElements img [p0, p1, p2]).2.getD (3 * k + 2) 0 =
        ([p0, p1, p2].getD (List.indexOf Descriptor.Blue
          [e0.descriptor, e1.descriptor, e2.descriptor]) []).getD k 0 := by
  have hD0 : (img.elements.getD 0 default).depth = 1 := by
    rw [helems]; exact hd0
  have hD1 : (img.elements.getD 1 default).depth = 1 := by
    rw [helems]; exact hd1
  have hD2 : (img.elements.getD 2 default).depth = 1 := by
    rw [helems]; exact hd2
  rcases perm3_rgb_cases _ _ _ hperm with ⟨h0, h1, h2⟩ | ⟨h0, h1, h2⟩ |
      ⟨h0, h1, h2⟩ | ⟨h0, h1, h2⟩ | ⟨h0, h1, h2⟩ | ⟨h0, h1, h2⟩
  · have hmain := merge_three_aux img p0 p1 p2 0 1 2 (by unfold perm012; omega)
      (by rw [show img.elements.map (fun e => e.descriptor) =
            [Descriptor.Red, .Green, .Blue] from by rw [helems]; simp [h0, h1, h2],
          show (img.elements.any fun e => e.descriptor = .Alpha) = false from by
            rw [helems]; simp [h0, h1, h2], hdepth]; decide)
      hnum hdepth hD0 hD1 hD2 hp0 hp1 hp2
    have hc := merge_conclusion_of _ p0 p1 p2 (img.width * img.height)
      hmain hp0 hp1 hp2
    simpa [h0, h1, h2] using hc
  · have hmain := merge_three_aux img p0 p1 p2 0 2 1 (by unfold perm012; omega)
      (by rw [show img.elements.map (fun e => e.descriptor) =
            [Descriptor.Red, .Blue, .Green] from by rw [helems]; simp [h0, h1, h2],
          show (img.elements.any fun e => e.descriptor = .Alpha) = false from by
            rw [helems]; simp [h0, h1, h2], hdepth]; decide)
      hnum hdepth hD0 hD1 hD2 hp0 hp1 hp2
    have hc := merge_conclusion_of _ p0 p2 p1 (img.width * img.height)
      hmain hp0 hp2 hp1
    simpa [h0, h1, h2] using hc
  · have hmain := merge_three_aux img p0 p1 p2 1 0 2 (by unfold perm012; omega)
      (by rw [show img.elements.map (fun e => e.descriptor) =
            [Descriptor.Green, .Red, .Blue] from by rw [helems]; simp [h0, h1, h2],
          show (img.elements.any fun e => e.descriptor = .Alpha) = false from by
            rw [helems]; simp [h0, h1, h2], hdepth]; decide)
      hnum hdepth hD0 hD1 hD2 hp0 hp1 hp2
    have hc := merge_conclusion_of _ p1 p0 p2 (img.width * img.height)
      hmain hp1 hp0 hp2
    simpa [h0, h1, h2] using hc
  · have hmain := merge_three_aux img p0 p1 p2 2 0 1 (by unfold perm012; omega)
      (by rw [show img.elements.map (fun e => e.descriptor) =
            [Descriptor.Green, .Blue, .Red] from by rw [helems]; simp [h0, h1, h2],
          show (img.elements.any fun e => e.descriptor = .Alpha) = false from by
            rw [helems]; simp [h0, h1, h2], hdepth]; decide)
      hnum hdepth hD0 hD1 hD2 hp0 hp1 hp2
    have hc := merge_conclusion_of _ p2 p0 p1 (img.width * img.height)
      hmain hp2 hp0 hp1
    simpa [h0, h1, h2] using hc
  · have hmain := merge_three_aux img p0 p1 p2 1 2 0 (by unfold perm012; omega)
      (by rw [show img.elements.map (fun e => e.descriptor) =
            [Descriptor.Blue, .Red, .Green] from by rw [helems]; simp [h0, h1, h2],
          show (img.elements.any fun e => e.descriptor = .Alpha) = false from by
            rw [helems]; simp [h0, h1, h2], hdepth]; decide)
      hnum hdepth hD0 hD1 hD2 hp0 hp1 hp2
    have hc := merge_conclusion_of _ p1 p2 p0 (img.width * img.height)
      hmain hp1 hp2 hp0
    simpa [h0, h1, h2] using hc
  · have hmain := merge_three_aux img p0 p1 p2 2 1 0 (by unfold perm012; omega)
      (by rw [show img.elements.map (fun e => e.descriptor) =
            [Descriptor.Blue, .Green, .Red] from by rw [helems]; simp [h0, h1, h2],
          show (img.elements.any fun e => e.descriptor = .Alpha) = false from by
            rw [helems]; simp [h0, h1, h2], hdepth]; decide)
      hnum hdepth hD0 hD1 hD2 hp0 hp1 hp2
    have hc := merge_conclusion_of _ p2 p1 p0 (img.width * img.height)
      hmain hp2 hp1 hp0
    simpa [h0, h1, h2] using hc

/-- Blue planar element. -/
def planarBlueElem : LogImageElement :=
  { descriptor := .Blue, depth := 1, bitsPerSample := 8, packing := 0,
    transfer := .Linear, dataOffset := 0, refLowData := 0,
    refHighData := 255, refLowQuantity := 0, refHighQuantity := 0,
    maxValue := 255 }

/-- Green planar element. -/
def planarGreenElem : LogImageElement :=
  { planarBlueElem with descriptor := .Green }

/-- Red planar element. -/
def planarRedElem : LogImageElement :=
  { planarBlueElem with descriptor := .Red }

/-- 2×1 file holding three planar elements in (Blue, Green, Red) order. -/
def mergeImg : LogImageFile :=
  { width := 2, height := 1, depth := 3, numElements := 3,
    elements := [planarBlueElem, planarGreenElem, planarRedElem],
    isMSB := false, srcFormat := .DPX, referenceBlack := 95,
    referenceWhite := 685, gamma := 1 }

/-- Witness for C1: with the planes presented in (Blue, Green, Red) file
order the merge still emits Red, Green, Blue per pixel: planes
([5,6], [3,4], [1,2]) merge to descriptor RGB and data (1,3,5, 2,4,6). -/
theorem merge_three_planar_rgb_witness :
    (mergeElements mergeImg [[5, 6], [3, 4], [1, 2]]).1 = some .RGB ∧
    (mergeElements mergeImg [[5, 6], [3, 4], [1, 2]]).2.getD 0 0 = 1 ∧
    (mergeElements mergeImg [[5, 6], [3, 4], [1, 2]]).2.getD 1 0 = 3 ∧
    (mergeElements mergeImg [[5, 6], [3, 4], [1, 2]]).2.getD 2 0 = 5 ∧
    (mergeElements mergeImg [[5, 6], [3, 4], [1, 2]]).2.getD 3 0 = 2 ∧
    (mergeElements mergeImg [[5, 6], [3, 4], [1, 2]]).2.getD 4 0 = 4 ∧
    (mergeElements mergeImg [[5, 6], [3, 4], [1, 2]]).2.getD 5 0 = 6 := by
  have h := merge_three_planar_rgb mergeImg planarBlueElem planarGreenElem
    planarRedElem [5, 6] [3, 4] [1, 2] rfl rfl rfl rfl rfl rfl
    (by decide) (by norm_num [mergeImg]) (by norm_num [mergeImg])
    (by norm_num [mergeImg])
  have h0 := h.2.2 0 (by norm_num [mergeImg])
  have h1 := h.2.2 1 (by norm_num [mergeImg])
  refine ⟨h.1, ?_, ?_, ?_, ?_, ?_, ?_⟩
  · simpa using h0.1
  · simpa using h0.2.1
  · simpa using h0.2.2
  · simpa using h1.1
  · simpa using h1.2.1
  · simpa using h1.2.2

end LogImageCore
